import Mathlib

/-!
Verification of the remotecode session orchestrator against its specification.

This file shallowly embeds the parts of the TypeScript source that the
claims C1..C10 are about:

* `src/permissions.ts` — static permission rules (`parseRule`,
  `extractCommand`, `matchRule`, `matchCliPermissions`);
* `src/telegram.ts` — outgoing message truncation and inline-keyboard
  widening in `sendMessage`;
* `src/callbacks.ts` — the pending permission/ask dialog registries
  (`denyAllPending`, `allowAllPending`, `resolveAsksWithText`,
  `registerPendingPerm` timeout behaviour, `stopOldSession`);
* `src/handler.ts` — the tool-permission cascade of `buildCanUseTool`,
  the busy branch of `handlePrompt`, the start of `executePrompt`, and
  the authorization gate of `handleMessage`;
* `src/claude.ts` — the channel reuse / staleness decision at the top of
  `querySession`;
* `src/watcher.ts` — `processNewData` with its active-query re-entrancy
  guard;
* `src/sessions.ts` — `findSession` with its filesystem fallback;
* `src/context.ts` — `isUserAllowed`.

Strings from the source are modelled as `List Char` where character-level
reasoning is needed (commands, message bodies, file names) and as `String`
where only equality matters (ids, tool names).  Machine integers do not
occur; the JS numbers used here are non-negative counters and sizes,
modelled as `Nat`.  External effect boundaries (JSON parsing of record
lines, the filesystem, the chat transport) are modelled as explicit
inputs or as emitted effect lists.
-/

/-! ### JS character classes used by the regexes in `permissions.ts` -/

/-- The JS `\s` character class (whitespace), as used by `trimStart`,
`split(/\s/)` and the env-assignment regexes in `extractCommand`. -/
def jsIsSpace (c : Char) : Bool :=
  c = ' ' || c = '\t' || c = '\n' || c = '\r' || c = '\x0b' || c = '\x0c' ||
  c = '\u00A0' || c = '\u1680' || ('\u2000' ≤ c && c ≤ '\u200A') ||
  c = '\u2028' || c = '\u2029' || c = '\u202F' || c = '\u205F' ||
  c = '\u3000' || c = '\uFEFF'

/-- The class `[A-Za-z_]` (first character of an identifier / a tool name). -/
def isToolNameChar (c : Char) : Bool :=
  ('A' ≤ c && c ≤ 'Z') || ('a' ≤ c && c ≤ 'z') || c = '_'

/-- The class `[A-Za-z0-9_]` (identifier continuation in env assignments). -/
def isIdentChar (c : Char) : Bool :=
  isToolNameChar c || ('0' ≤ c && c ≤ '9')

/-! ### `permissions.ts`: rule parsing and matching -/

/-- Rule polarity: an entry of `permissions.deny` or `permissions.allow`. -/
inductive RuleKind where
  | allow
  | deny
deriving DecidableEq, Repr

/-- `ParsedRule` from `permissions.ts`: `specifier = none` is a bare tool
match; `prefixMatch` is set when the raw specifier ended with `:*`. -/
structure ParsedRule where
  kind : RuleKind
  toolName : String
  specifier : Option (List Char)
  prefixMatch : Bool
deriving DecidableEq, Repr

/-- `parseRule` from `permissions.ts`: matches `^([A-Za-z_]+)\((.+)\)$`
(the `.+` group cannot contain a newline and must be nonempty), else the
bare form `^[A-Za-z_]+$`, else no rule.  A specifier ending in `:*` is
stored with `prefixMatch := true` and the `:*` removed. -/
def parseRule (raw : List Char) (kind : RuleKind) : Option ParsedRule :=
  let toolName := raw.takeWhile isToolNameChar
  let rest := raw.dropWhile isToolNameChar
  match rest with
  | [] =>
    if toolName = [] then none
    else some ⟨kind, String.mk toolName, none, false⟩
  | '(' :: tail =>
    if toolName ≠ [] && tail.getLast? = some ')' &&
        tail.dropLast ≠ [] && !(tail.dropLast.contains '\n') then
      let spec := tail.dropLast
      if [':', '*'].isSuffixOf spec then
        some ⟨kind, String.mk toolName, some (spec.dropLast.dropLast), true⟩
      else
        some ⟨kind, String.mk toolName, some spec, false⟩
    else none
  | _ => none

/-- Helper for `extractCommand`: one round of the env-assignment stripping
loop.  Returns the remainder after removing a leading match of
`^[A-Za-z_][A-Za-z0-9_]*=\S*\s+`, or `none` when the test regex
`^[A-Za-z_][A-Za-z0-9_]*=\S*\s` does not match. -/
def dropEnvAssign? (cs : List Char) : Option (List Char) :=
  match cs with
  | [] => none
  | c :: rest =>
    if isToolNameChar c then
      match rest.dropWhile isIdentChar with
      | '=' :: afterEq =>
        let afterVal := afterEq.dropWhile (fun ch => !jsIsSpace ch)
        match afterVal with
        | ch :: _ =>
          if jsIsSpace ch then some (afterVal.dropWhile jsIsSpace) else none
        | [] => none
      | _ => none
    else none

theorem dropWhile_length_le (p : Char → Bool) (l : List Char) :
    (l.dropWhile p).length ≤ l.length := by
  induction l with
  | nil => simp [List.dropWhile]
  | cons c cs ih =>
    simp only [List.dropWhile]
    cases p c <;> simp <;> omega

theorem dropEnvAssign?_shrinks (cs rest : List Char)
    (h : dropEnvAssign? cs = some rest) : rest.length < cs.length := by
  match cs with
  | [] => simp [dropEnvAssign?] at h
  | c :: cs' =>
    simp only [dropEnvAssign?] at h
    by_cases hc : isToolNameChar c
    · simp only [hc, if_true] at h
      cases hdw : cs'.dropWhile isIdentChar with
      | nil => rw [hdw] at h; exact absurd h (by simp)
      | cons d ds =>
        rw [hdw] at h
        have hds : ds.length < cs'.length := by
          have h1 := dropWhile_length_le isIdentChar cs'
          rw [hdw] at h1
          simp at h1
          omega
        by_cases hd : d = '='
        · subst hd
          simp only at h
          cases hav : ds.dropWhile (fun ch => !jsIsSpace ch) with
          | nil => rw [hav] at h; exact absurd h (by simp)
          | cons e es =>
            rw [hav] at h
            by_cases he : jsIsSpace e
            · simp only [he, if_true, Option.some.injEq] at h
              have h2 := dropWhile_length_le jsIsSpace (e :: es)
              have h3 := dropWhile_length_le (fun ch => !jsIsSpace ch) ds
              rw [hav] at h3
              subst h
              simp only [List.length_cons] at h2 h3
              simp only [List.length_cons]
              omega
            · simp [he] at h
        · cases d <;> simp_all
    · simp [hc] at h

/-- Fuel-bounded body of the env-assignment stripping loop; each round
strictly shortens the list, so `cs.length` rounds always suffice. -/
def stripEnvAssignsGo : Nat → List Char → List Char
  | 0, cs => cs
  | fuel + 1, cs =>
    match dropEnvAssign? cs with
    | some rest => stripEnvAssignsGo fuel rest
    | none => cs

/-- The env-assignment stripping loop of `extractCommand`:
`while (/^[A-Za-z_][A-Za-z0-9_]*=\S*\s/.test(cmd)) cmd = cmd.replace(...)`. -/
def stripEnvAssigns (cs : List Char) : List Char :=
  stripEnvAssignsGo cs.length cs

/-- The fuel bound is exact: with enough fuel the loop reaches its fixpoint,
so `stripEnvAssigns` satisfies the loop equation of the source. -/
theorem stripEnvAssignsGo_succ :
    ∀ (fuel : Nat) (cs : List Char), cs.length ≤ fuel →
      stripEnvAssignsGo (fuel + 1) cs = stripEnvAssignsGo fuel cs := by
  intro fuel
  induction fuel with
  | zero =>
    intro cs hle
    have : cs = [] := List.length_eq_zero.mp (Nat.le_zero.mp hle)
    subst this
    simp [stripEnvAssignsGo, dropEnvAssign?]
  | succ n ih =>
    intro cs hle
    cases hda : dropEnvAssign? cs with
    | none => simp [stripEnvAssignsGo, hda]
    | some rest =>
      have hshrink := dropEnvAssign?_shrinks cs rest hda
      have h1 : stripEnvAssignsGo (n + 1 + 1) cs = stripEnvAssignsGo (n + 1) rest := by
        simp [stripEnvAssignsGo, hda]
      have h2 : stripEnvAssignsGo (n + 1) cs = stripEnvAssignsGo n rest := by
        simp [stripEnvAssignsGo, hda]
      rw [h1, h2, ih rest (by omega)]

theorem stripEnvAssignsGo_fuel (fuel : Nat) (cs : List Char)
    (h : cs.length ≤ fuel) :
    stripEnvAssignsGo fuel cs = stripEnvAssigns cs := by
  obtain ⟨k, rfl⟩ : ∃ k, fuel = cs.length + k := ⟨fuel - cs.length, by omega⟩
  induction k with
  | zero => rfl
  | succ m ih =>
    have := stripEnvAssignsGo_succ (cs.length + m) cs (by omega)
    rw [show cs.length + (m + 1) = (cs.length + m) + 1 from rfl, this,
      ih (by omega)]

/-- The fuel bound is exact: with enough fuel the loop reaches its fixpoint,
so `stripEnvAssigns` satisfies the loop equation of the source. -/
theorem stripEnvAssigns_eq (cs : List Char) :
    stripEnvAssigns cs =
      match dropEnvAssign? cs with
      | some rest => stripEnvAssigns rest
      | none => cs := by
  cases hda : dropEnvAssign? cs with
  | none =>
    simp only [stripEnvAssigns]
    cases hlen : cs.length with
    | zero => simp [stripEnvAssignsGo]
    | succ m => simp [stripEnvAssignsGo, hda]
  | some rest =>
    have hshrink := dropEnvAssign?_shrinks cs rest hda
    have hcs : cs.length = (cs.length - 1) + 1 := by omega
    simp only [stripEnvAssigns]
    rw [hcs]
    simp only [stripEnvAssignsGo, hda]
    exact stripEnvAssignsGo_fuel (cs.length - 1) rest (by omega)

/-- The JS `firstWord.split("/")` (and `raw.split("\n")` in the watcher):
split a list at every occurrence of a separator element; always nonempty. -/
def jsSplit (sep : Char) (cs : List Char) : List (List Char) :=
  List.splitOn sep cs

/-- The tail step of `extractCommand`:
`firstWord.split("/").pop() || firstWord` — the last path component,
falling back to the whole word when that component is the empty string. -/
def lastPathComponent (w : List Char) : List Char :=
  let last := ((jsSplit '/' w).getLast?).getD []
  if last = [] then w else last

/-- `extractCommand` from `permissions.ts`: trim leading whitespace, strip
leading env-var assignments, take the first whitespace-delimited word,
strip its path prefix. -/
def extractCommand (command : List Char) : List Char :=
  let cmd := stripEnvAssigns (command.dropWhile jsIsSpace)
  let firstWord := cmd.takeWhile (fun ch => !jsIsSpace ch)
  lastPathComponent firstWord

/-- The tool input record as far as `matchRule` consults it: the `command`
field is present iff `typeof input.command === "string"`. -/
structure ToolInput where
  command : Option (List Char)
deriving DecidableEq, Repr

/-- JS `String.prototype.trim` (both ends). -/
def jsTrim (cs : List Char) : List Char :=
  ((cs.dropWhile jsIsSpace).reverse.dropWhile jsIsSpace).reverse

/-- `matchRule` from `permissions.ts`.  Bare rules match every use of the
tool.  Specifier rules only apply to `Bash`: a `prefixMatch` rule matches
when the extracted command name equals the specifier *or* the command
(after `trimStart`) starts with the specifier; an exact rule compares the
trimmed command with the specifier. -/
def matchRule (rule : ParsedRule) (toolName : String) (input : ToolInput) : Bool :=
  if rule.toolName ≠ toolName then false
  else
    match rule.specifier with
    | none => true
    | some spec =>
      if toolName = "Bash" then
        let command := input.command.getD []
        if command = [] then false
        else if rule.prefixMatch then
          extractCommand command = spec ||
            spec.isPrefixOf (command.dropWhile jsIsSpace)
        else jsTrim command = spec
      else false

/-- `matchCliPermissions` from `permissions.ts`: deny rules are consulted
before allow rules; no match yields `none`. -/
def matchCliPermissions (rules : List ParsedRule) (toolName : String)
    (input : ToolInput) : Option RuleKind :=
  if rules.any (fun r => r.kind = RuleKind.deny && matchRule r toolName input) then
    some RuleKind.deny
  else if rules.any (fun r => r.kind = RuleKind.allow && matchRule r toolName input) then
    some RuleKind.allow
  else none

/-- C2 counterexample input: the prefix rule `Bash(git:*)` parses to a rule
with specifier `git`. -/
def gitStarRule : ParsedRule :=
  ⟨RuleKind.allow, "Bash", some "git".data, true⟩

/-- C2: the claim states that a `Bash(prefix:*)` rule matches *iff* the
first argv word (after env-assignment and path stripping) equals the
specifier.  The command `gitk` refutes the only-if direction: its first
argv word is `gitk`, not `git`, yet `matchRule` accepts it through the
`command.trimStart().startsWith(specifier)` disjunct. -/
theorem matchRule_gitk_matches_git_star :
    parseRule "Bash(git:*)".data RuleKind.allow = some gitStarRule ∧
    matchRule gitStarRule "Bash" ⟨some "gitk".data⟩ = true ∧
    extractCommand "gitk".data ≠ "git".data := by
  refine ⟨by decide, by decide, by decide⟩

/-- C2 (corrected): a static rule parsed from `Tool(prefix:*)` surface
syntax for the shell tool matches a non-empty command iff the first argv
word after stripping env assignments and a path prefix equals the
specifier, *or* the command after `trimStart` begins with the specifier
string. -/
theorem matchRule_bash_prefix_rule_iff (raw spec : List Char) (kind : RuleKind)
    (hparse : parseRule raw kind = some ⟨kind, "Bash", some spec, true⟩)
    (command : List Char) (hne : command ≠ []) :
    matchRule ⟨kind, "Bash", some spec, true⟩ "Bash" ⟨some command⟩ = true ↔
      (extractCommand command = spec ∨ spec <+: command.dropWhile jsIsSpace) := by
  simp [matchRule, hne, List.isPrefixOf_iff_prefix]

/-- Witness for C2: the rule `Bash(git:*)` matches `FOO=1 /usr/bin/git log`
because the extracted command name is `git`. -/
theorem matchRule_bash_prefix_rule_iff_witness :
    matchRule ⟨RuleKind.allow, "Bash", some "git".data, true⟩ "Bash"
      ⟨some "FOO=1 /usr/bin/git log".data⟩ = true :=
  (matchRule_bash_prefix_rule_iff "Bash(git:*)".data "git".data RuleKind.allow
    (by decide) "FOO=1 /usr/bin/git log".data (by decide)).mpr
    (Or.inl (by decide))

/-! ### `telegram.ts`: outgoing message truncation (`sendMessage`) -/

/-- `TELEGRAM_MSG_LIMIT` from `telegram.ts`. -/
def TELEGRAM_MSG_LIMIT : Nat := 4096

/-- `WIDE_FILLER` from `telegram.ts`: 35 braille-blank characters used to
force full-width message bubbles under an inline keyboard. -/
def WIDE_FILLER : List Char := List.replicate 35 '⠀'

/-- The truncation step of `sendMessage`:
`if (text.length > TELEGRAM_MSG_LIMIT) text = text.slice(0, LIMIT - 15) + "\n...[truncated]"`. -/
def truncateLongMessage (text : List Char) : List Char :=
  if TELEGRAM_MSG_LIMIT < text.length then
    text.take (TELEGRAM_MSG_LIMIT - 15) ++ "\n...[truncated]".data
  else text

/-- `widenForInlineKeyboard` from `telegram.ts`: appends a newline plus the
filler when the reply markup contains an `inline_keyboard`. -/
def widenForInlineKeyboard (text : List Char) (hasInlineKeyboard : Bool) : List Char :=
  if hasInlineKeyboard then text ++ '\n' :: WIDE_FILLER else text

/-- The text `sendMessage` actually puts in the API payload: truncation
first, then inline-keyboard widening. -/
def sendMessageText (text : List Char) (hasInlineKeyboard : Bool) : List Char :=
  widenForInlineKeyboard (truncateLongMessage text) hasInlineKeyboard

theorem getLast?_of_suffix {l₁ l₂ : List Char} (h : l₁ <:+ l₂) (hne : l₁ ≠ []) :
    l₂.getLast? = l₁.getLast? := by
  obtain ⟨t, rfl⟩ := h
  exact List.getLast?_append_of_ne_nil t hne

theorem truncateLongMessage_length (text : List Char)
    (h : TELEGRAM_MSG_LIMIT < text.length) :
    (truncateLongMessage text).length = TELEGRAM_MSG_LIMIT := by
  have hm : "\n...[truncated]".data.length = 15 := by decide
  rw [truncateLongMessage, if_pos h, List.length_append, List.length_take, hm]
  simp only [TELEGRAM_MSG_LIMIT] at h ⊢
  omega

theorem widenForInlineKeyboard_length (text : List Char) :
    (widenForInlineKeyboard text true).length = text.length + 36 := by
  simp [widenForInlineKeyboard, WIDE_FILLER]

/-- C8: the claim states every sent body over 4096 characters is truncated
to at most 4096 characters ending in `[truncated]`.  A 4097-character body
sent with an inline keyboard refutes this: the width filler is appended
*after* truncation, so the sent body has 4132 characters and ends in the
filler, not in the marker. -/
theorem sendMessage_filler_after_truncation :
    (sendMessageText (List.replicate 4097 'a') true).length = 4132 ∧
    ¬ ("[truncated]".data <:+ sendMessageText (List.replicate 4097 'a') true) := by
  have hlen : (List.replicate 4097 'a').length = 4097 := List.length_replicate _ _
  have hgt : TELEGRAM_MSG_LIMIT < (List.replicate 4097 'a').length := by
    rw [hlen]; decide
  constructor
  · rw [sendMessageText, widenForInlineKeyboard_length,
      truncateLongMessage_length _ hgt]
    decide
  · intro hsuf
    have h1 : (sendMessageText (List.replicate 4097 'a') true).getLast? =
        "[truncated]".data.getLast? := getLast?_of_suffix hsuf (by decide)
    have h2 : (sendMessageText (List.replicate 4097 'a') true).getLast? =
        ('\n' :: WIDE_FILLER).getLast? := by
      simp only [sendMessageText, widenForInlineKeyboard, if_true]
      exact List.getLast?_append_of_ne_nil _ (by decide)
    rw [h2] at h1
    exact absurd h1 (by decide)

/-- C8 (corrected): for an outgoing body longer than 4096 characters that
carries no inline keyboard, the sent body is exactly 4096 characters and
ends with the `[truncated]` marker.  (With an inline keyboard the widening
filler is appended after truncation, see the counterexample.) -/
theorem sendMessage_truncates_no_keyboard (text : List Char)
    (h : TELEGRAM_MSG_LIMIT < text.length) :
    (sendMessageText text false).length = TELEGRAM_MSG_LIMIT ∧
    "[truncated]".data <:+ sendMessageText text false := by
  have hbase : sendMessageText text false = truncateLongMessage text := by
    simp [sendMessageText, widenForInlineKeyboard]
  constructor
  · rw [hbase, truncateLongMessage_length text h]
  · rw [hbase]
    have hmarker : "[truncated]".data <:+ "\n...[truncated]".data := by decide
    have happ : "\n...[truncated]".data <:+
        text.take (TELEGRAM_MSG_LIMIT - 15) ++ "\n...[truncated]".data :=
      List.suffix_append _ _
    simp only [truncateLongMessage, if_pos h]
    exact hmarker.trans happ

/-- Witness for C8 (corrected) at a 4097-character body. -/
theorem sendMessage_truncates_no_keyboard_witness :
    TELEGRAM_MSG_LIMIT < (List.replicate 4097 'a').length ∧
    ((sendMessageText (List.replicate 4097 'a') false).length = TELEGRAM_MSG_LIMIT ∧
      "[truncated]".data <:+ sendMessageText (List.replicate 4097 'a') false) :=
  ⟨by rw [List.length_replicate]; decide,
    sendMessage_truncates_no_keyboard (List.replicate 4097 'a')
      (by rw [List.length_replicate]; decide)⟩

/-! ### `session-state.ts` and `callbacks.ts`: per-session registries,
pending dialogs, and the broadcast operations -/

/-- `PermMeta` from `callbacks.ts`. -/
structure PermMeta where
  sessionId : String
  toolName : String
deriving DecidableEq, Repr

/-- One entry of the `pendingPerm` map from `callbacks.ts`; `hasMsgInfo`
records whether a dialog chat message was attached (`msgInfo?`). -/
structure PendingPermEntry where
  id : String
  meta : PermMeta
  hasMsgInfo : Bool
deriving DecidableEq, Repr

/-- One entry of the `pendingAsk` map from `callbacks.ts` (the `meta`
question/options payload is not consulted by the operations modelled
here). -/
structure PendingAskEntry where
  id : String
  hasMsgInfo : Bool
deriving DecidableEq, Repr

/-- The four resolutions a pending permission dialog can produce. -/
inductive PermDecision where
  | allow
  | deny
  | tool
  | yolo
deriving DecidableEq, Repr

/-- `QueuedMessage` from `session-state.ts` (prompt content reduced to its
text; the handler context is ambient). -/
structure QueuedMessage where
  promptText : String
  chatId : Nat
  messageId : Nat
  voiceMode : Bool
  quiet : Bool
deriving DecidableEq, Repr

/-- Externally observable effects of the callback-registry operations:
resolving a pending dialog promise, or editing its chat message. -/
inductive Effect where
  | resolvePerm (id : String) (decision : PermDecision)
  | resolveAsk (id : String) (answer : String)
  | editMsg (id : String) (text : String)
deriving DecidableEq, Repr

/-- The shared mutable per-session state of `session-state.ts`,
`callbacks.ts` and `context.ts`: pending dialog registries, the
`permDenied` set, suppression, per-session yolo and tool allow-lists,
the processing set, the per-session FIFO queues, `activeQueries`, reply
targets, and the persisted active session id.  `interruptedChannels` and
`closedChannels` record which sessions have had `interruptSession` /
`closeSession` called on their agent channel. -/
structure BridgeState where
  pendingPerm : List PendingPermEntry
  pendingAsk : List PendingAskEntry
  permDenied : List String
  suppressed : List String
  sessionYolo : List String
  sessionAllowedTools : List (String × String)
  processing : List String
  queue : List (String × List QueuedMessage)
  activeQueries : List String
  replyTarget : List (String × Nat)
  interruptedChannels : List String
  closedChannels : List String
  activeSessionId : Option String
deriving DecidableEq, Repr

/-- `isSessionBusy` from `session-state.ts`. -/
def isSessionBusy (s : BridgeState) (sessionId : String) : Bool :=
  s.processing.contains sessionId

/-- `isSessionSuppressed` from `session-state.ts`. -/
def isSessionSuppressed (s : BridgeState) (sessionId : String) : Bool :=
  s.suppressed.contains sessionId

/-- `isSessionYolo` from `session-state.ts`. -/
def isSessionYolo (s : BridgeState) (sessionId : String) : Bool :=
  s.sessionYolo.contains sessionId

/-- `isToolAllowed` from `session-state.ts`. -/
def isToolAllowed (s : BridgeState) (sessionId toolName : String) : Bool :=
  s.sessionAllowedTools.contains (sessionId, toolName)

/-- `isPermDenied` from `callbacks.ts`. -/
def isPermDenied (s : BridgeState) (sessionId : String) : Bool :=
  s.permDenied.contains sessionId

/-- `suppressSessionMessages` from `session-state.ts`. -/
def suppressSessionMessages (s : BridgeState) (sessionId : String) : BridgeState :=
  { s with suppressed := s.suppressed.insert sessionId }

/-- `unsuppressSessionMessages` from `session-state.ts`. -/
def unsuppressSessionMessages (s : BridgeState) (sessionId : String) : BridgeState :=
  { s with suppressed := s.suppressed.erase sessionId }

/-- `setSessionAutoAllow` from `session-state.ts`. -/
def setSessionAutoAllow (s : BridgeState) (sessionId : String) : BridgeState :=
  { s with sessionYolo := s.sessionYolo.insert sessionId }

/-- `resetSessionAutoAllow` from `session-state.ts`: drops both the yolo
flag and the per-session tool allow-list. -/
def resetSessionAutoAllow (s : BridgeState) (sessionId : String) : BridgeState :=
  { s with sessionYolo := s.sessionYolo.erase sessionId,
           sessionAllowedTools :=
             s.sessionAllowedTools.filter (fun p => p.1 ≠ sessionId) }

/-- `denyAllPending` from `callbacks.ts`: resolve every pending permission
dialog as deny, add its session to `permDenied`, edit its dialog message
to "Cancelled" when one was sent; resolve every pending ask with the
empty answer (also edited to "Cancelled"); clear both registries. -/
def denyAllPending (s : BridgeState) : BridgeState × List Effect :=
  let permEffects := s.pendingPerm.flatMap fun e =>
    Effect.resolvePerm e.id PermDecision.deny ::
      (if e.hasMsgInfo then [Effect.editMsg e.id "Cancelled"] else [])
  let askEffects := s.pendingAsk.flatMap fun e =>
    Effect.resolveAsk e.id "" ::
      (if e.hasMsgInfo then [Effect.editMsg e.id "Cancelled"] else [])
  ({ s with
      pendingPerm := [],
      pendingAsk := [],
      permDenied := s.pendingPerm.map (fun e => e.meta.sessionId) ++ s.permDenied },
    permEffects ++ askEffects)

/-- `allowAllPending` from `callbacks.ts`: resolve every pending permission
dialog as allow (message edited to "Allowed") and every pending ask with
the empty answer (message edited to "Skipped"); clear both registries.
The `permDenied` set is not touched. -/
def allowAllPending (s : BridgeState) : BridgeState × List Effect :=
  let permEffects := s.pendingPerm.flatMap fun e =>
    Effect.resolvePerm e.id PermDecision.allow ::
      (if e.hasMsgInfo then [Effect.editMsg e.id "Allowed"] else [])
  let askEffects := s.pendingAsk.flatMap fun e =>
    Effect.resolveAsk e.id "" ::
      (if e.hasMsgInfo then [Effect.editMsg e.id "Skipped"] else [])
  ({ s with pendingPerm := [], pendingAsk := [] }, permEffects ++ askEffects)

/-- `resolveAsksWithText` from `callbacks.ts`: resolve every pending ask
dialog with the given text (its chat message is edited to echo the
answer, abbreviated here to "Answered"); returns whether any were
resolved. -/
def resolveAsksWithText (s : BridgeState) (text : String) :
    BridgeState × List Effect × Bool :=
  if s.pendingAsk = [] then (s, [], false)
  else
    let askEffects := s.pendingAsk.flatMap fun e =>
      Effect.resolveAsk e.id text ::
        (if e.hasMsgInfo then [Effect.editMsg e.id "Answered"] else [])
    ({ s with pendingAsk := [] }, askEffects, true)

/-- `stopOldSession` from `callbacks.ts`: on a switch away from a busy old
session, suppress it, set its yolo flag and allow-resolve every pending
dialog; on a switch away from an idle old session, reset its auto-allow
state and deny-resolve every pending dialog.  The new session (when
given) is unsuppressed.  No channel is interrupted or closed. -/
def stopOldSession (s : BridgeState) (newSessionId : Option String) :
    BridgeState × List Effect :=
  let afterOld :=
    match s.activeSessionId with
    | some oldId =>
      if some oldId ≠ newSessionId then
        if isSessionBusy s oldId then
          allowAllPending (setSessionAutoAllow (suppressSessionMessages s oldId) oldId)
        else
          denyAllPending (resetSessionAutoAllow s oldId)
      else (s, [])
    | none => (s, [])
  match newSessionId with
  | some nid => (unsuppressSessionMessages afterOld.1 nid, afterOld.2)
  | none => afterOld

/-- The outcome of one `canUseTool` callback as far as the claims are
concerned: auto-allow without UI, render the AskUserQuestion keyboard,
deny immediately because the session's `permDenied` flag is set, or
render the interactive permission dialog. -/
inductive ToolCallOutcome where
  | allowNoUI
  | askDialog
  | denyInterrupted
  | permDialog
deriving DecidableEq, Repr

/-- The decision cascade of `buildCanUseTool` in `handler.ts`:
suppression guard, AskUserQuestion (when the input carries a question),
daemon/session yolo, per-tool allow, then — once the serialized
permission gate is acquired — the `permDenied` short-circuit, the
re-check of yolo and per-tool allow, and finally the interactive dialog.
`pre` is the shared state when the callback starts, `post` the state
once the gate has been acquired; flags can flip in between while the
callback waits on the gate. -/
def canUseToolDecision (ctxYolo : Bool) (pre post : BridgeState)
    (sessionId toolName : String) (hasQuestion : Bool) : ToolCallOutcome :=
  if isSessionSuppressed pre sessionId then ToolCallOutcome.allowNoUI
  else if toolName = "AskUserQuestion" && hasQuestion then ToolCallOutcome.askDialog
  else if ctxYolo || isSessionYolo pre sessionId then ToolCallOutcome.allowNoUI
  else if isToolAllowed pre sessionId toolName then ToolCallOutcome.allowNoUI
  else if isPermDenied post sessionId then ToolCallOutcome.denyInterrupted
  else if ctxYolo || isSessionYolo post sessionId then ToolCallOutcome.allowNoUI
  else if isToolAllowed post sessionId toolName then ToolCallOutcome.allowNoUI
  else ToolCallOutcome.permDialog

/-- The turn-start bookkeeping of `executePrompt` in `handler.ts`:
`clearCleanupTimeout`, `clearPermDenied`, `markProcessing`, and adding the
session to `activeQueries` (timers are outside the model). -/
def executePromptStart (s : BridgeState) (sessionId : String) : BridgeState :=
  { s with
      permDenied := s.permDenied.filter (fun x => x ≠ sessionId),
      processing := s.processing.insert sessionId,
      activeQueries := s.activeQueries.insert sessionId }

/-- Association-list update with JS `Map.set` semantics: overwrite an
existing key, else append. -/
def assocSet {β : Type} (l : List (String × β)) (k : String) (v : β) :
    List (String × β) :=
  if (l.lookup k).isSome then
    l.map (fun p => if p.1 = k then (k, v) else p)
  else l ++ [(k, v)]

/-- `enqueue` from `session-state.ts`: append the message to the session's
FIFO queue (`messageQueue.get(id) ?? []` then `push`). -/
def enqueue (s : BridgeState) (sessionId : String) (m : QueuedMessage) :
    BridgeState :=
  let cur := (s.queue.lookup sessionId).getD []
  { s with queue := assocSet s.queue sessionId (cur ++ [m]) }

/-- Modelled from the spec: the reply target advances when the user
answers an AskUserQuestion via text (`updateReplyTarget` is declared in
`session-state.ts`; only its callers appear under `src/`). -/
def updateReplyTarget (s : BridgeState) (sessionId : String) (messageId : Nat) :
    BridgeState :=
  { s with replyTarget := assocSet s.replyTarget sessionId messageId }

/-- How `handlePrompt` in `handler.ts` disposed of an arriving prompt. -/
inductive PromptAction where
  | answeredAsk
  | queuedOnly
  | queuedDenyAll
  | startedTurn
deriving DecidableEq, Repr

/-- The dispatch of `handlePrompt` in `handler.ts` once the working
directory has been resolved: a prompt for a busy session answers a
pending AskUserQuestion (without queueing) when one is outstanding,
otherwise it is enqueued, and `denyAllPending` is fired when a
permission dialog is open; a prompt for an idle session starts a turn
(`executePrompt`, not expanded here). -/
def handlePromptArrival (s : BridgeState) (sessionId promptText : String)
    (messageId : Nat) (item : QueuedMessage) :
    BridgeState × List Effect × PromptAction :=
  if isSessionBusy s sessionId then
    if s.pendingAsk ≠ [] then
      let r := resolveAsksWithText s promptText
      (updateReplyTarget r.1 sessionId messageId, r.2.1, PromptAction.answeredAsk)
    else
      let s₁ := enqueue s sessionId item
      if s₁.pendingPerm ≠ [] then
        let r := denyAllPending s₁
        (r.1, r.2, PromptAction.queuedDenyAll)
      else (s₁, [], PromptAction.queuedOnly)
  else (s, [], PromptAction.startedTurn)

/-- A bridge state with every registry empty. -/
def emptyBridgeState : BridgeState :=
  ⟨[], [], [], [], [], [], [], [], [], [], [], [], none⟩

/-- The C1 counterexample state: session `a` is active and busy, with one
open permission dialog `p1`. -/
def switchCexState : BridgeState :=
  { emptyBridgeState with
      pendingPerm := [⟨"p1", ⟨"a", "Bash"⟩, true⟩],
      processing := ["a"],
      activeSessionId := some "a" }

/-- C1: the claim states that switching away from a busy session resolves
every open permission dialog as *deny*.  In the code the busy branch of
`stopOldSession` calls `allowAllPending`, so the dialog resolves as
*allow* (its message edited to "Allowed"), refuting the claim at this
concrete state. -/
theorem stopOldSession_busy_allows_not_denies :
    (stopOldSession switchCexState (some "b")).2 =
      [Effect.resolvePerm "p1" PermDecision.allow, Effect.editMsg "p1" "Allowed"] ∧
    Effect.resolvePerm "p1" PermDecision.deny ∉
      (stopOldSession switchCexState (some "b")).2 := by
  decide

/-- C1 (corrected): switching from busy session `a` to session `b` marks
`a` suppressed, marks `a` yolo, resolves every open permission dialog as
*allow*, clears the dialog registry, and neither interrupts nor closes
any agent channel (so `a`'s stream continues). -/
theorem stopOldSession_busy_switch (s : BridgeState) (a b : String)
    (hact : s.activeSessionId = some a) (hne : a ≠ b)
    (hbusy : isSessionBusy s a = true) :
    a ∈ (stopOldSession s (some b)).1.suppressed ∧
    a ∈ (stopOldSession s (some b)).1.sessionYolo ∧
    (∀ e ∈ s.pendingPerm,
      Effect.resolvePerm e.id PermDecision.allow ∈ (stopOldSession s (some b)).2) ∧
    (stopOldSession s (some b)).1.pendingPerm = [] ∧
    (stopOldSession s (some b)).1.interruptedChannels = s.interruptedChannels ∧
    (stopOldSession s (some b)).1.closedChannels = s.closedChannels := by
  have hr : stopOldSession s (some b) =
      (unsuppressSessionMessages
        (allowAllPending (setSessionAutoAllow (suppressSessionMessages s a) a)).1 b,
       (allowAllPending (setSessionAutoAllow (suppressSessionMessages s a) a)).2) := by
    simp [stopOldSession, hact, hbusy, hne]
  rw [hr]
  refine ⟨?_, ?_, ?_, ?_, ?_, ?_⟩
  · simp only [unsuppressSessionMessages, allowAllPending, setSessionAutoAllow,
      suppressSessionMessages]
    exact (List.mem_erase_of_ne hne).mpr (List.mem_insert_iff.mpr (Or.inl rfl))
  · simp [unsuppressSessionMessages, allowAllPending, setSessionAutoAllow,
      suppressSessionMessages, List.mem_insert_iff]
  · intro e he
    simp only [allowAllPending, setSessionAutoAllow, suppressSessionMessages]
    exact List.mem_append_left _
      (List.mem_flatMap.mpr ⟨e, he, List.mem_cons_self _ _⟩)
  · simp [unsuppressSessionMessages, allowAllPending, setSessionAutoAllow,
      suppressSessionMessages]
  · simp [unsuppressSessionMessages, allowAllPending, setSessionAutoAllow,
      suppressSessionMessages]
  · simp [unsuppressSessionMessages, allowAllPending, setSessionAutoAllow,
      suppressSessionMessages]

/-- Witness for C1 (corrected) at the concrete counterexample state. -/
theorem stopOldSession_busy_switch_witness :
    switchCexState.activeSessionId = some "a" ∧ "a" ≠ "b" ∧
    isSessionBusy switchCexState "a" = true ∧
    ("a" ∈ (stopOldSession switchCexState (some "b")).1.suppressed ∧
     "a" ∈ (stopOldSession switchCexState (some "b")).1.sessionYolo ∧
     (∀ e ∈ switchCexState.pendingPerm,
       Effect.resolvePerm e.id PermDecision.allow ∈
         (stopOldSession switchCexState (some "b")).2) ∧
     (stopOldSession switchCexState (some "b")).1.pendingPerm = [] ∧
     (stopOldSession switchCexState (some "b")).1.interruptedChannels =
       switchCexState.interruptedChannels ∧
     (stopOldSession switchCexState (some "b")).1.closedChannels =
       switchCexState.closedChannels) :=
  ⟨rfl, by decide, by decide,
    stopOldSession_busy_switch switchCexState "a" "b" rfl (by decide) (by decide)⟩

theorem assocSet_lookup {β : Type} (l : List (String × β)) (k : String) (v : β) :
    (assocSet l k v).lookup k = some v := by
  unfold assocSet
  split
  case isTrue h =>
    induction l with
    | nil => simp [List.lookup] at h
    | cons p t ih =>
      obtain ⟨a, b⟩ := p
      by_cases hpk : a = k
      · subst hpk
        simp only [List.map_cons, if_pos rfl, List.lookup_cons, beq_self_eq_true,
          if_true]
      · have hne : (k == a) = false := beq_eq_false_iff_ne.mpr (Ne.symm hpk)
        simp only [List.map_cons, if_neg hpk]
        rw [List.lookup_cons, hne]
        rw [List.lookup_cons, hne] at h
        exact ih h
  case isFalse h =>
    have hnone : l.lookup k = none := by
      cases hl : l.lookup k with
      | none => rfl
      | some w => rw [hl] at h; simp at h
    clear h
    induction l with
    | nil => simp [List.lookup]
    | cons p t ih =>
      obtain ⟨a, b⟩ := p
      by_cases hpk : (k == a) = true
      · rw [List.lookup_cons, hpk] at hnone
        simp at hnone
      · have hne : (k == a) = false := by
          cases hkk : (k == a)
          · rfl
          · exact absurd hkk hpk
        rw [List.lookup_cons, hne] at hnone
        rw [List.cons_append, List.lookup_cons, hne]
        exact ih hnone

/-- The C4 counterexample state: session `s` carries the `permDenied` flag
but is also suppressed (as after a deny-all broadcast followed by a
switch away from the busy session). -/
def denyFlagCexState : BridgeState :=
  { emptyBridgeState with permDenied := ["s"], suppressed := ["s"] }

/-- C4: the claim states that once the `permDenied` flag is set, *any*
further tool callback for that session returns deny without a dialog.
The suppression guard runs first in `buildCanUseTool`, so a suppressed
session's callback returns allow despite the flag, refuting the claim at
this concrete state. -/
theorem canUseTool_suppressed_overrides_denied_flag :
    "s" ∈ denyFlagCexState.permDenied ∧
    canUseToolDecision false denyFlagCexState denyFlagCexState "s" "Bash" false =
      ToolCallOutcome.allowNoUI ∧
    ToolCallOutcome.allowNoUI ≠ ToolCallOutcome.denyInterrupted := by
  decide

/-- C4 (corrected): a deny-all broadcast resolves every pending permission
dialog as deny (editing its message to "Cancelled"), flags each dialog's
session in `permDenied` and clears the registry; a further tool callback
for a flagged session returns deny without rendering a dialog *provided*
the session is not suppressed, the tool is not an AskUserQuestion, and
neither daemon yolo, session yolo nor the per-tool allow-list applies;
and the flag is cleared at the start of the session's next turn. -/
theorem denyAllPending_flags_and_blocks (s : BridgeState) (e : PendingPermEntry)
    (he : e ∈ s.pendingPerm)
    (ctxYolo : Bool) (pre post : BridgeState) (sid toolName : String)
    (hasQuestion : Bool)
    (hflag : sid ∈ post.permDenied)
    (hsupp : sid ∉ pre.suppressed)
    (hask : ¬(toolName = "AskUserQuestion" ∧ hasQuestion = true))
    (hy : ctxYolo = false)
    (hsy : sid ∉ pre.sessionYolo)
    (hta : (sid, toolName) ∉ pre.sessionAllowedTools)
    (s₂ : BridgeState) (sid₂ : String) :
    Effect.resolvePerm e.id PermDecision.deny ∈ (denyAllPending s).2 ∧
    (e.hasMsgInfo = true → Effect.editMsg e.id "Cancelled" ∈ (denyAllPending s).2) ∧
    e.meta.sessionId ∈ (denyAllPending s).1.permDenied ∧
    (denyAllPending s).1.pendingPerm = [] ∧
    canUseToolDecision ctxYolo pre post sid toolName hasQuestion =
      ToolCallOutcome.denyInterrupted ∧
    sid₂ ∉ (executePromptStart s₂ sid₂).permDenied := by
  refine ⟨?_, ?_, ?_, ?_, ?_, ?_⟩
  · exact List.mem_append_left _
      (List.mem_flatMap.mpr ⟨e, he, List.mem_cons_self _ _⟩)
  · intro hmsg
    exact List.mem_append_left _
      (List.mem_flatMap.mpr ⟨e, he, List.mem_cons_of_mem _ (by simp [hmsg])⟩)
  · exact List.mem_append_left _ (List.mem_map.mpr ⟨e, he, rfl⟩)
  · rfl
  · have h1 : isSessionSuppressed pre sid = false := by
      simpa [isSessionSuppressed] using hsupp
    have h2 : (decide (toolName = "AskUserQuestion") && hasQuestion) = false := by
      cases hq : hasQuestion
      · simp
      · simp only [Bool.and_true]
        by_cases ht : toolName = "AskUserQuestion"
        · exact absurd ⟨ht, hq⟩ hask
        · simp [ht]
    have h3 : isSessionYolo pre sid = false := by
      simpa [isSessionYolo] using hsy
    have h4 : isToolAllowed pre sid toolName = false := by
      simpa [isToolAllowed] using hta
    have h5 : isPermDenied post sid = true := by
      simpa [isPermDenied] using hflag
    simp [canUseToolDecision, h1, h2, h3, h4, h5, hy]
  · simp [executePromptStart, List.mem_filter]

/-- Witness for C4 (corrected): one pending dialog for session `x`, a
flagged non-suppressed non-yolo session, and a flag-clearing turn start. -/
theorem denyAllPending_flags_and_blocks_witness :
    (⟨"q1", ⟨"x", "Write"⟩, true⟩ : PendingPermEntry) ∈
      (BridgeState.mk [⟨"q1", ⟨"x", "Write"⟩, true⟩] [] [] [] [] [] ["x"] [] [] [] [] []
        (some "x")).pendingPerm ∧
    "x" ∈ (BridgeState.mk [] [] ["x"] [] [] [] [] [] [] [] [] [] none).permDenied ∧
    canUseToolDecision false
      (BridgeState.mk [] [] ["x"] [] [] [] [] [] [] [] [] [] none)
      (BridgeState.mk [] [] ["x"] [] [] [] [] [] [] [] [] [] none)
      "x" "Write" false = ToolCallOutcome.denyInterrupted ∧
    "x" ∉ (executePromptStart
      (BridgeState.mk [] [] ["x"] [] [] [] [] [] [] [] [] [] none) "x").permDenied := by
  have h := denyAllPending_flags_and_blocks
    (BridgeState.mk [⟨"q1", ⟨"x", "Write"⟩, true⟩] [] [] [] [] [] ["x"] [] [] [] [] []
      (some "x"))
    ⟨"q1", ⟨"x", "Write"⟩, true⟩ (by decide)
    false
    (BridgeState.mk [] [] ["x"] [] [] [] [] [] [] [] [] [] none)
    (BridgeState.mk [] [] ["x"] [] [] [] [] [] [] [] [] [] none)
    "x" "Write" false
    (by decide) (by decide) (by decide) rfl (by decide) (by decide)
    (BridgeState.mk [] [] ["x"] [] [] [] [] [] [] [] [] [] none) "x"
  exact ⟨by decide, by decide, h.2.2.2.2.1, h.2.2.2.2.2⟩

/-- C5: a prompt arriving for a busy session answers an outstanding
AskUserQuestion with its text (no enqueue, ask registry cleared,
queue untouched); otherwise the turn is appended to the session's FIFO
queue, and when a permission dialog is open every pending dialog is
deny-resolved so the stream ends and the queue drains. -/
theorem handlePrompt_busy_dispatch (s : BridgeState) (sid txt : String)
    (mid : Nat) (item : QueuedMessage)
    (hbusy : isSessionBusy s sid = true) :
    (s.pendingAsk ≠ [] →
      (handlePromptArrival s sid txt mid item).2.2 = PromptAction.answeredAsk ∧
      (∀ e ∈ s.pendingAsk,
        Effect.resolveAsk e.id txt ∈ (handlePromptArrival s sid txt mid item).2.1) ∧
      (handlePromptArrival s sid txt mid item).1.queue = s.queue ∧
      (handlePromptArrival s sid txt mid item).1.pendingAsk = []) ∧
    (s.pendingAsk = [] →
      ((handlePromptArrival s sid txt mid item).1.queue.lookup sid =
        some ((s.queue.lookup sid).getD [] ++ [item])) ∧
      (s.pendingPerm ≠ [] →
        (handlePromptArrival s sid txt mid item).2.2 = PromptAction.queuedDenyAll ∧
        (∀ e ∈ s.pendingPerm,
          Effect.resolvePerm e.id PermDecision.deny ∈
            (handlePromptArrival s sid txt mid item).2.1) ∧
        (handlePromptArrival s sid txt mid item).1.pendingPerm = []) ∧
      (s.pendingPerm = [] →
        (handlePromptArrival s sid txt mid item).2.2 = PromptAction.queuedOnly ∧
        (handlePromptArrival s sid txt mid item).2.1 = [])) := by
  constructor
  · intro hasks
    have hr : handlePromptArrival s sid txt mid item =
        (updateReplyTarget (resolveAsksWithText s txt).1 sid mid,
         (resolveAsksWithText s txt).2.1, PromptAction.answeredAsk) := by
      simp [handlePromptArrival, hbusy, hasks]
    have hres : resolveAsksWithText s txt =
        ({ s with pendingAsk := [] },
          s.pendingAsk.flatMap fun e =>
            Effect.resolveAsk e.id txt ::
              (if e.hasMsgInfo then [Effect.editMsg e.id "Answered"] else []),
          true) := by
      simp [resolveAsksWithText, hasks]
    refine ⟨by rw [hr], ?_, ?_, ?_⟩
    · intro e he
      rw [hr, hres]
      exact List.mem_flatMap.mpr ⟨e, he, List.mem_cons_self _ _⟩
    · rw [hr, hres]
      rfl
    · rw [hr, hres]
      rfl
  · intro hnoasks
    have hq : (enqueue s sid item).queue.lookup sid =
        some ((s.queue.lookup sid).getD [] ++ [item]) := by
      simp only [enqueue]
      exact assocSet_lookup _ _ _
    by_cases hperms : s.pendingPerm = []
    · have hr : handlePromptArrival s sid txt mid item =
          (enqueue s sid item, [], PromptAction.queuedOnly) := by
        simp [handlePromptArrival, hbusy, hnoasks, enqueue, hperms]
      refine ⟨by rw [hr]; exact hq, ?_, ?_⟩
      · intro hne
        exact absurd hperms hne
      · intro _
        rw [hr]
        exact ⟨rfl, rfl⟩
    · have hr : handlePromptArrival s sid txt mid item =
          ((denyAllPending (enqueue s sid item)).1,
           (denyAllPending (enqueue s sid item)).2, PromptAction.queuedDenyAll) := by
        simp [handlePromptArrival, hbusy, hnoasks, enqueue, hperms]
      refine ⟨?_, ?_, fun hcon => absurd hcon hperms⟩
      · rw [hr]
        simp only [denyAllPending]
        exact hq
      · intro _
        refine ⟨by rw [hr], ?_, by rw [hr]; simp [denyAllPending]⟩
        intro e he
        rw [hr]
        exact List.mem_append_left _
          (List.mem_flatMap.mpr ⟨e, he, List.mem_cons_self _ _⟩)

/-- The C5 witness state: busy session `w` with one pending permission
dialog and an empty ask registry. -/
def busyPromptState : BridgeState :=
  { emptyBridgeState with
      pendingPerm := [⟨"d1", ⟨"w", "Bash"⟩, false⟩],
      processing := ["w"],
      activeSessionId := some "w" }

/-- Witness for C5 at a busy session with an open permission dialog. -/
theorem handlePrompt_busy_dispatch_witness :
    isSessionBusy busyPromptState "w" = true ∧
    ((handlePromptArrival busyPromptState "w" "hello" 7
        ⟨"hello", 1, 7, false, false⟩).1.queue.lookup "w" =
      some [⟨"hello", 1, 7, false, false⟩] ∧
     (handlePromptArrival busyPromptState "w" "hello" 7
        ⟨"hello", 1, 7, false, false⟩).2.2 = PromptAction.queuedDenyAll) := by
  have h := handlePrompt_busy_dispatch busyPromptState "w" "hello" 7
    ⟨"hello", 1, 7, false, false⟩ (by decide)
  have h2 := h.2 rfl
  refine ⟨by decide, ?_, (h2.2.1 (by decide)).1⟩
  have := h2.1
  simpa using this

/-! ### `callbacks.ts`: pending-dialog timeout (`registerPendingPerm`) -/

/-- `PENDING_TIMEOUT_MS` from `callbacks.ts` (5 minutes). -/
def PENDING_TIMEOUT_MS : Nat := 300000

/-- An attempt to resolve one pending permission dialog, at a point in
time: a button callback (`handlePermCallback`), or one of the two
broadcasts. -/
inductive DialogEvent where
  | button (d : PermDecision)
  | broadcastDeny
  | broadcastAllow
deriving DecidableEq, Repr

/-- Timeline semantics of one `registerPendingPerm` entry: the first
resolution attempt arriving before the 5-minute timer wins (a button
resolves with its decision and the dialog message is deleted by the
handler; `denyAllPending` resolves deny editing "Cancelled";
`allowAllPending` resolves allow editing "Allowed").  When nothing
arrives before the timer fires, the entry is deleted, the message is
edited to "Timed out", and the promise resolves deny.  Events are given
in chronological order; the result is (resolution time, decision, chat
message edit). -/
def dialogResolution (events : List (Nat × DialogEvent)) :
    Nat × PermDecision × String :=
  match events.find? (fun p => p.1 < PENDING_TIMEOUT_MS) with
  | some (t, DialogEvent.button d) => (t, d, "deleted")
  | some (t, DialogEvent.broadcastDeny) => (t, PermDecision.deny, "Cancelled")
  | some (t, DialogEvent.broadcastAllow) => (t, PermDecision.allow, "Allowed")
  | none => (PENDING_TIMEOUT_MS, PermDecision.deny, "Timed out")

/-- C7: a pending permission dialog that receives no button callback (and
no broadcast) before the timeout auto-resolves as deny after 5 minutes,
with its chat message edited to "Timed out". -/
theorem pendingPerm_times_out (events : List (Nat × DialogEvent))
    (hlate : ∀ p ∈ events, PENDING_TIMEOUT_MS ≤ p.1) :
    dialogResolution events =
      (PENDING_TIMEOUT_MS, PermDecision.deny, "Timed out") ∧
    PENDING_TIMEOUT_MS = 5 * 60 * 1000 := by
  refine ⟨?_, rfl⟩
  have hnone : events.find? (fun p => p.1 < PENDING_TIMEOUT_MS) = none := by
    rw [List.find?_eq_none]
    intro p hp
    have := hlate p hp
    simp only [decide_eq_true_eq]
    omega
  simp [dialogResolution, hnone]

/-- Witness for C7: no resolution events at all. -/
theorem pendingPerm_times_out_witness :
    (∀ p ∈ ([] : List (Nat × DialogEvent)), PENDING_TIMEOUT_MS ≤ p.1) ∧
    dialogResolution [] = (PENDING_TIMEOUT_MS, PermDecision.deny, "Timed out") := by
  refine ⟨by simp, (pendingPerm_times_out [] (by simp)).1⟩

/-! ### `claude.ts`: channel reuse and staleness (`querySession`) -/

/-- The per-session channel state of `claude.ts` as far as the pre-stream
decision consults it (`stale` flag and last self-size; the turn lock,
interrupted flag and queues are not read by this step). -/
structure ChannelState where
  stale : Bool
  lastFileSize : Nat
deriving DecidableEq, Repr

/-- How `querySession` starts a turn: reuse the live channel, or create a
new one (`resume: sessionId` when `resume = true`, fresh `sessionId`
otherwise). -/
inductive QueryStart where
  | reuse
  | create (resume : Bool)
deriving DecidableEq, Repr

/-- The channel decision at the top of `querySession` in `claude.ts`.
`channel` is the in-memory session entry (if any); `file` is the on-disk
record file modelled as its size (`none` when `findSessionFilePath`
finds nothing; `getJsonlFileSize` then reports `0`).  A live non-stale
channel is marked stale when both the current size and the recorded
last self-size are non-zero and differ; a stale channel is closed and
deleted; creation resumes iff the file exists.  Returns the action and
whether the old channel was torn down. -/
def querySessionStart (channel : Option ChannelState) (file : Option Nat) :
    QueryStart × Bool :=
  let currentSize := file.getD 0
  let checked :=
    match channel with
    | some c =>
      if !c.stale && currentSize > 0 && c.lastFileSize > 0 &&
          currentSize ≠ c.lastFileSize then
        some { c with stale := true }
      else some c
    | none => none
  match checked with
  | some c =>
    if c.stale then (QueryStart.create file.isSome, true)
    else (QueryStart.reuse, false)
  | none => (QueryStart.create file.isSome, false)

/-- C3: when a live idle channel's recorded last self-size and the current
on-disk size are both non-zero and differ, the next prompt tears the
channel down and recreates it in resume mode. -/
theorem querySession_stale_recreates_resume (c : ChannelState) (n : Nat)
    (hn : 0 < n) (hlast : 0 < c.lastFileSize) (hne : n ≠ c.lastFileSize) :
    querySessionStart (some c) (some n) = (QueryStart.create true, true) := by
  cases hstale : c.stale with
  | true =>
    simp [querySessionStart, hstale]
  | false =>
    have hcond : (!c.stale && decide (0 < n) && decide (0 < c.lastFileSize) &&
        !decide (n = c.lastFileSize)) = true := by
      simp [hstale, hn, hlast, hne]
    simp [querySessionStart, hstale, hn, hlast, hne]

/-- Witness for C3: last self-size 10, current size 25. -/
theorem querySession_stale_recreates_resume_witness :
    0 < 25 ∧ 0 < (⟨false, 10⟩ : ChannelState).lastFileSize ∧ 25 ≠ 10 ∧
    querySessionStart (some ⟨false, 10⟩) (some 25) =
      (QueryStart.create true, true) :=
  ⟨by decide, by decide, by decide,
    querySession_stale_recreates_resume ⟨false, 10⟩ 25 (by decide) (by decide)
      (by decide)⟩

/-! ### `watcher.ts`: tailing the active session file (`processNewData`) -/

/-- A content block of a conversation-record entry as the watcher reads it. -/
inductive WBlock where
  | text (s : String)
  | toolUse (id name : String)
  | toolResult (toolUseId : String)
  | other
deriving DecidableEq, Repr

/-- The `message.content` field: a plain string, a block array, or absent. -/
inductive WContent where
  | str (s : String)
  | blocks (bs : List WBlock)
  | missing
deriving DecidableEq, Repr

/-- One parsed record line as the watcher consumes it. -/
structure WatcherEntry where
  etype : String
  isMeta : Bool
  hasToolUseResult : Bool
  content : WContent
deriving DecidableEq, Repr

/-- `extractMessageContent` from `jsonl.ts`: a string content is returned
as is; in a block array the first `text` block wins; otherwise empty. -/
def extractMessageContent : WContent → String
  | WContent.str s => s
  | WContent.blocks bs =>
    match bs.findSome? (fun b =>
      match b with
      | WBlock.text t => some t
      | _ => none) with
    | some t => t
    | none => ""
  | WContent.missing => ""

/-- The watcher's mutable state (`state` in `watcher.ts`) as far as
`processNewData` touches it.  `hasFilePath` stands for
`currentFilePath !== null`; `permNotify` for a live notification message
id; `autoSync` is the `REMOTECODE_AUTO_SYNC` toggle read per call. -/
structure WatcherState where
  currentSessionId : Option String
  hasFilePath : Bool
  lastByteOffset : Nat
  lineBuf : List Char
  pendingToolUses : List (String × String)
  permCheckScheduled : Bool
  permNotify : Bool
  autoSync : Bool
deriving DecidableEq, Repr

/-- `clearPermState` from `watcher.ts`: empty the pending map, cancel the
scheduled check, and forget the notification message. -/
def clearPermState (s : WatcherState) : WatcherState :=
  { s with pendingToolUses := [], permCheckScheduled := false, permNotify := false }

/-- `dismissPermNotification` from `watcher.ts`: edit the existing
notification message to its resolved form (an external chat effect, not
tracked here) and clear the permission state. -/
def dismissPermNotification (s : WatcherState) : WatcherState :=
  clearPermState s

/-- `schedulePermCheck` from `watcher.ts`: arm the 8-second debounce once. -/
def schedulePermCheck (s : WatcherState) : WatcherState :=
  if s.permCheckScheduled then s else { s with permCheckScheduled := true }

/-- Pass 1 of `processNewData` for one entry: a user entry's
`tool_result` blocks clear the matching pending ids, an assistant
entry's `tool_use` blocks are added to the pending map (tool name
falling back to "Unknown"). -/
def trackToolUses (pending : List (String × String)) (e : WatcherEntry) :
    List (String × String) :=
  if e.etype ≠ "assistant" && e.etype ≠ "user" then pending
  else
    let afterResults :=
      match e.etype, e.content with
      | "user", WContent.blocks bs =>
        bs.foldl (fun acc b =>
          match b with
          | WBlock.toolResult tid => acc.filter (fun p => p.1 ≠ tid)
          | _ => acc) pending
      | _, _ => pending
    match e.etype, e.content with
    | "assistant", WContent.blocks bs =>
      bs.foldl (fun acc b =>
        match b with
        | WBlock.toolUse tid name =>
          assocSet acc tid (if name = "" then "Unknown" else name)
        | _ => acc) afterResults
    | _, _ => afterResults

/-- Whether the first content block is a `tool_result` (the pass-2 skip
for SDK-generated user messages). -/
def headIsToolResult : WContent → Bool
  | WContent.blocks (b :: _) =>
    match b with
    | WBlock.toolResult _ => true
    | _ => false
  | _ => false

/-- Whether a block array carries any `tool_use` block (the pass-2 skip
for assistant tool preambles). -/
def contentHasToolUse : WContent → Bool
  | WContent.blocks bs =>
    bs.any (fun b =>
      match b with
      | WBlock.toolUse _ _ => true
      | _ => false)
  | _ => false

/-- Pass 2 of `processNewData` (auto-sync display): forward user and
assistant text entries as labelled chat messages, skipping meta entries,
tool results and tool-use-carrying messages.  The `<thinking>` stripping
and HTML/truncation rendering of the final body are chat-transport
rendering and are elided. -/
def syncForwards (entries : List WatcherEntry) : List String :=
  entries.filterMap fun e =>
    if e.etype ≠ "assistant" && e.etype ≠ "user" then none
    else if e.etype = "user" && e.isMeta then none
    else if e.etype = "user" && e.hasToolUseResult then none
    else if e.etype = "user" && headIsToolResult e.content then none
    else if e.etype = "assistant" && contentHasToolUse e.content then none
    else
      let text := (extractMessageContent e.content).trim
      if text = "" then none
      else some ((if e.etype = "user" then "[sync] You:" else "[sync] Bot:")
        ++ " " ++ text)

/-- `processNewData` from `watcher.ts`.  The record file is modelled as
its character content (`none` when `statSync` fails); `parseLine` is the
JSON parse of one line (`none` for a malformed line, as in
`parseJsonlLines`).  Returns the new state, the chat messages forwarded
by the display pass, and whether `markSessionStale` was invoked.  The
byte offset and line buffer advance before the re-entrancy guard; a tail
read under an active orchestrator query dismisses the host-pending
notification and processes nothing else. -/
def processNewData (parseLine : List Char → Option WatcherEntry)
    (s : WatcherState) (file : Option (List Char)) (activeQueries : List String) :
    WatcherState × List String × Bool :=
  match s.currentSessionId, s.hasFilePath with
  | some sid, true =>
    match file with
    | none => (s, [], false)
    | some content =>
      let fileSize := content.length
      if fileSize ≤ s.lastByteOffset then (s, [], false)
      else
        let chunk := content.drop s.lastByteOffset
        let raw := s.lineBuf ++ chunk
        let lines := jsSplit '\n' raw
        let s₁ := { s with
          lastByteOffset := fileSize,
          lineBuf := (lines.getLast?).getD [] }
        if activeQueries.contains sid then
          (dismissPermNotification s₁, [], false)
        else
          let entries := lines.dropLast.filterMap fun l =>
            if jsTrim l = [] then none else parseLine l
          let pending := entries.foldl trackToolUses s₁.pendingToolUses
          let s₂ := { s₁ with pendingToolUses := pending }
          let s₃ := if pending ≠ [] then schedulePermCheck s₂
            else dismissPermNotification s₂
          let fwds := if s.autoSync then syncForwards entries else []
          (s₃, fwds, true)
  | _, _ => (s, [], false)

/-- C6: when the active-query set contains the watched session id at the
time a grown tail is read, no chat messages are forwarded, the pending
map is not updated from the tail (the guard only dismisses the
notification, leaving the map empty), no stale mark is issued, and the
byte offset still advances to the current file size. -/
theorem watcher_guard_skips_processing (parseLine : List Char → Option WatcherEntry)
    (s : WatcherState) (sid : String) (content : List Char)
    (active : List String)
    (hsid : s.currentSessionId = some sid) (hpath : s.hasFilePath = true)
    (hgrow : s.lastByteOffset < content.length)
    (hactive : sid ∈ active) :
    (processNewData parseLine s (some content) active).2.1 = [] ∧
    (processNewData parseLine s (some content) active).1.lastByteOffset =
      content.length ∧
    (processNewData parseLine s (some content) active).1.pendingToolUses = [] ∧
    (processNewData parseLine s (some content) active).2.2 = false := by
  have hcontains : active.contains sid = true := List.elem_iff.mpr hactive
  have hnotle : ¬ content.length ≤ s.lastByteOffset := by omega
  simp [processNewData, hsid, hpath, hnotle, hcontains, hactive,
    dismissPermNotification, clearPermState]

/-- Witness for C6: a grown file read while the session is the active
query; the stale pending entry is dismissed and the offset advances. -/
theorem watcher_guard_skips_processing_witness :
    (⟨some "s", true, 1, [], [("t1", "Bash")], false, true, true⟩ :
        WatcherState).currentSessionId = some "s" ∧
    1 < "abc\n".data.length ∧
    ((processNewData (fun _ => none)
        ⟨some "s", true, 1, [], [("t1", "Bash")], false, true, true⟩
        (some "abc\n".data) ["s"]).2.1 = [] ∧
      (processNewData (fun _ => none)
        ⟨some "s", true, 1, [], [("t1", "Bash")], false, true, true⟩
        (some "abc\n".data) ["s"]).1.lastByteOffset = "abc\n".data.length ∧
      (processNewData (fun _ => none)
        ⟨some "s", true, 1, [], [("t1", "Bash")], false, true, true⟩
        (some "abc\n".data) ["s"]).1.pendingToolUses = [] ∧
      (processNewData (fun _ => none)
        ⟨some "s", true, 1, [], [("t1", "Bash")], false, true, true⟩
        (some "abc\n".data) ["s"]).2.2 = false) := by
  exact ⟨rfl, by decide, watcher_guard_skips_processing (fun _ => none)
    ⟨some "s", true, 1, [], [("t1", "Bash")], false, true, true⟩
    "s" "abc\n".data ["s"] rfl rfl (by decide) (by decide)⟩

/-! ### `sessions.ts`: session lookup (`findSession`) -/

/-- `SessionInfo` from `sessions.ts`. -/
structure SessionInfo where
  sessionId : String
  slug : Option String
  project : String
  projectName : String
  lastModified : Nat
  firstMessage : Option String
  lastMessage : Option String
deriving DecidableEq, Repr

/-- JS `toLowerCase` (ASCII range, which is all a hex id or slug uses). -/
def lowerStr (s : String) : String :=
  String.mk (s.data.map Char.toLower)

/-- A hex digit as accepted by the case-insensitive `UUID_RE`. -/
def isHexChar (c : Char) : Bool :=
  c.isDigit || ('a' ≤ c && c ≤ 'f') || ('A' ≤ c && c ≤ 'F')

/-- The `UUID_RE` test from `sessions.ts`:
`^[0-9a-f]{8}-[0-9a-f]{4}-[0-9a-f]{4}-[0-9a-f]{4}-[0-9a-f]{12}$/i`. -/
def isUuidName (cs : List Char) : Bool :=
  match jsSplit '-' cs with
  | [a, b, c, d, e] =>
    a.length = 8 && b.length = 4 && c.length = 4 && d.length = 4 &&
    e.length = 12 && (a ++ b ++ c ++ d ++ e).all isHexChar
  | _ => false

/-- One `.jsonl` candidate inside a project directory; `info` is the
result of `candidateToSessionInfo` for it (`none` when
`parseSessionFile` fails). -/
structure FsFile where
  name : String
  info : Option SessionInfo
deriving DecidableEq, Repr

/-- The four-step scan of the recent-session index at the top of
`findSession`: exact slug, lower-cased slug, exact id, id prefix. -/
def indexLookup (index : List SessionInfo) (query : String) : Option SessionInfo :=
  let q := lowerStr query
  match index.find? (fun s => s.slug = some query) with
  | some s => some s
  | none =>
    match index.find? (fun s => s.slug.map lowerStr = some q) with
    | some s => some s
    | none =>
      match index.find? (fun s => s.sessionId = query) with
      | some s => some s
      | none => index.find? (fun s => query.data.isPrefixOf s.sessionId.data)

/-- One file test of the filesystem fallback loop in `findSession`:
a `.jsonl` file whose UUID-shaped base name equals or extends the query
yields its `candidateToSessionInfo`; anything else (including a parse
failure) lets the loop continue. -/
def fsMatches (query : String) (f : FsFile) : Option SessionInfo :=
  if ".jsonl".data.isSuffixOf f.name.data then
    let base := f.name.data.take (f.name.data.length - 6)
    if isUuidName base && (base = query.data || query.data.isPrefixOf base) then
      f.info
    else none
  else none

/-- The filesystem fallback of `findSession`: scan every project
directory's files in order, returning the first match. -/
def fsFallback (tree : List (String × List FsFile)) (query : String) :
    Option SessionInfo :=
  tree.findSome? (fun dir => dir.2.findSome? (fsMatches query))

/-- `findSession` from `sessions.ts`: an empty recent-50 index yields
nothing; otherwise the index is scanned first, and on a miss the
filesystem is scanned directly — but only for queries of length at
least 8. -/
def findSession (index : List SessionInfo) (tree : List (String × List FsFile))
    (query : String) : Option SessionInfo :=
  if index.isEmpty then none
  else
    match indexLookup index query with
    | some s => some s
    | none =>
      if 8 ≤ query.length then fsFallback tree query else none

theorem findSome?_eq_of_unique {α β : Type} (l : List α) (f : α → Option β)
    (b : β) (hex : ∃ a ∈ l, f a = some b)
    (huniq : ∀ a ∈ l, ∀ c, f a = some c → c = b) :
    l.findSome? f = some b := by
  induction l with
  | nil =>
    obtain ⟨a, ha, _⟩ := hex
    exact absurd ha (List.not_mem_nil a)
  | cons x xs ih =>
    cases hfx : f x with
    | some y =>
      have hy : y = b := huniq x (List.mem_cons_self _ _) y hfx
      subst hy
      simp [List.findSome?, hfx]
    | none =>
      obtain ⟨a, ha, hab⟩ := hex
      have hax : a ≠ x := fun hax => by rw [hax, hfx] at hab; exact absurd hab (by simp)
      have haxs : a ∈ xs := by
        rcases List.mem_cons.mp ha with h | h
        · exact absurd h hax
        · exact h
      rw [show (x :: xs).findSome? f = xs.findSome? f by simp [List.findSome?, hfx]]
      exact ih ⟨a, haxs, hab⟩ (fun a ha c hc => huniq a (List.mem_cons_of_mem _ ha) c hc)

/-- C9: a query of length at least 8 that misses the recent-50 index but
is a prefix of the UUID name of an on-disk session file (the only such
match in the tree, with a parseable file) is found by the filesystem
fallback and returns that session.  A query shorter than 8 characters
that misses the index is not found: the fallback is skipped. -/
theorem findSession_fallback_by_long_prefix (index : List SessionInfo)
    (tree : List (String × List FsFile)) (q₁ q₂ dir₀ : String)
    (files₀ : List FsFile) (f₀ : FsFile) (sid : List Char) (info₀ : SessionInfo)
    (hidx : index ≠ [])
    (hmiss₁ : indexLookup index q₁ = none)
    (hlen₁ : 8 ≤ q₁.length)
    (hdir : (dir₀, files₀) ∈ tree)
    (hf : f₀ ∈ files₀)
    (hname : f₀.name.data = sid ++ ".jsonl".data)
    (hqpre : q₁.data.isPrefixOf sid = true)
    (huuid : isUuidName sid = true)
    (hinfo : f₀.info = some info₀)
    (huniq : ∀ p ∈ tree, ∀ f ∈ p.2, ∀ i, fsMatches q₁ f = some i → i = info₀)
    (hmiss₂ : indexLookup index q₂ = none)
    (hlen₂ : q₂.length < 8) :
    findSession index tree q₁ = some info₀ ∧
    findSession index tree q₂ = none := by
  have hEmpty : index.isEmpty = false := by
    cases index with
    | nil => exact absurd rfl hidx
    | cons a l => rfl
  have hmatch : fsMatches q₁ f₀ = some info₀ := by
    have hsuffix : ".jsonl".data.isSuffixOf f₀.name.data = true := by
      rw [hname]
      exact List.isSuffixOf_iff_suffix.mpr (List.suffix_append _ _)
    have hbase : f₀.name.data.take (f₀.name.data.length - 6) = sid := by
      rw [hname, List.length_append]
      have h6 : (".jsonl".data).length = 6 := by decide
      rw [h6, Nat.add_sub_cancel, List.take_left]
    rw [fsMatches, if_pos hsuffix, hbase]
    rw [if_pos (by simp [huuid, hqpre])]
    exact hinfo
  have hinner : files₀.findSome? (fsMatches q₁) = some info₀ :=
    findSome?_eq_of_unique _ _ _ ⟨f₀, hf, hmatch⟩
      (fun f hfm i hi => huniq (dir₀, files₀) hdir f hfm i hi)
  have houter : fsFallback tree q₁ = some info₀ :=
    findSome?_eq_of_unique _ _ _ ⟨(dir₀, files₀), hdir, hinner⟩
      (fun p hp i hi => by
        obtain ⟨f, hfp, hfi⟩ := List.exists_of_findSome?_eq_some hi
        exact huniq p hp f hfp i hfi)
  constructor
  · simp [findSession, hEmpty, hmiss₁, hlen₁, houter]
  · have hnle : ¬ 8 ≤ q₂.length := by omega
    simp [findSession, hEmpty, hmiss₂, hnle]

/-- The C9 witness target id and its parsed session. -/
def uuidA : String := "abcd1234-1111-2222-3333-444444444444"

/-- The C9 witness session info for `uuidA`. -/
def infoA : SessionInfo :=
  ⟨uuidA, none, "/home/u/proj", "proj", 5, some "hi", some "hi"⟩

/-- The C9 witness index: one unrelated recent session. -/
def idxB : List SessionInfo :=
  [⟨"ffff0000-aaaa-bbbb-cccc-dddddddddddd", some "other", "/home/u/other",
    "other", 9, none, none⟩]

/-- The C9 witness tree: one project directory holding the target file. -/
def treeA : List (String × List FsFile) :=
  [("-home-u-proj", [⟨uuidA ++ ".jsonl", some infoA⟩])]

/-- Witness for C9: the 8-character prefix `abcd1234` finds `uuidA`
through the filesystem fallback; the 7-character prefix `abcd123`
misses. -/
theorem findSession_fallback_by_long_prefix_witness :
    findSession idxB treeA "abcd1234" = some infoA ∧
    findSession idxB treeA "abcd123" = none :=
  findSession_fallback_by_long_prefix idxB treeA "abcd1234" "abcd123"
    "-home-u-proj" [⟨uuidA ++ ".jsonl", some infoA⟩] ⟨uuidA ++ ".jsonl", some infoA⟩
    uuidA.data infoA
    (by decide) (by decide) (by decide)
    (by decide) (by decide) (by decide) (by decide) (by decide) (by decide)
    (by decide) (by decide) (by decide)

/-! ### `context.ts` and `handler.ts`: the authorization gate -/

/-- `isUserAllowed` from `context.ts`: a defined user id found in the
allowed-ids set, or a non-empty username whose lower-casing is in the
allowed-names set.  Anything else — including no id and no username —
is not allowed. -/
def isUserAllowed (userId : Option Nat) (username : Option String)
    (allowedIds : List Nat) (allowedNames : List String) : Bool :=
  (match userId with
   | some uid => allowedIds.contains uid
   | none => false) ||
  (match username with
   | some u => u ≠ "" && allowedNames.contains (lowerStr u)
   | none => false)

/-- A Telegram `User` as the handler reads it. -/
structure TgUser where
  id : Nat
  username : Option String
deriving DecidableEq, Repr

/-- An incoming Telegram `Message` as `handleMessage` classifies it
(`sender` models the optional `msg.from`). -/
structure TgMessage where
  sender : Option TgUser
  chatId : Nat
  messageId : Nat
  hasVoice : Bool
  hasPhoto : Bool
  hasImageDoc : Bool
  text : Option String
deriving DecidableEq, Repr

/-- JS truthiness of the optional `msg.text` (empty string is falsy). -/
def hasNonEmptyText : Option String → Bool
  | some s => s ≠ ""
  | none => false

/-- The `warnedUsers` key of `handleMessage`:
`String(user?.id || user?.username || msg.chat.id)` with JS truthiness
(a zero id and an empty username are falsy). -/
def senderKey (sender : Option TgUser) (chatId : Nat) : String :=
  match sender with
  | some u =>
    if u.id ≠ 0 then toString u.id
    else
      match u.username with
      | some n => if n ≠ "" then n else toString chatId
      | none => toString chatId
  | none => toString chatId

/-- Where `handleMessage` sends an incoming message: one of the content
handlers, silently dropped, silently blocked (already-warned sender), or
blocked with a single "Not authorized." reply. -/
inductive MsgRoute where
  | voiceHandler
  | imageHandler
  | textHandler
  | ignoredNoContent
  | blockedSilent
  | blockedReplied
deriving DecidableEq, Repr

/-- The content dispatch at the bottom of `handleMessage`: voice/audio,
photo, image document, then text. -/
def routeContent (msg : TgMessage) : MsgRoute :=
  if msg.hasVoice then MsgRoute.voiceHandler
  else if msg.hasPhoto then MsgRoute.imageHandler
  else if msg.hasImageDoc then MsgRoute.imageHandler
  else if hasNonEmptyText msg.text then MsgRoute.textHandler
  else MsgRoute.ignoredNoContent

/-- The authorization gate of `handleMessage` in `handler.ts`, over the
`warnedUsers` set: an unauthorized sender is never routed; the first
offence replies "Not authorized." and records the sender key, repeats
are dropped silently. -/
def handleMessageStep (allowedIds : List Nat) (allowedNames : List String)
    (msg : TgMessage) (warned : List String) : MsgRoute × List String :=
  if isUserAllowed (msg.sender.map (fun u => u.id))
      (msg.sender.bind (fun u => u.username)) allowedIds allowedNames then
    (routeContent msg, warned)
  else
    if warned.contains (senderKey msg.sender msg.chatId) then
      (MsgRoute.blockedSilent, warned)
    else (MsgRoute.blockedReplied, senderKey msg.sender msg.chatId :: warned)

/-- A whole update stream folded through `handleMessageStep`, collecting
each message's route together with its sender key. -/
def processMessages (allowedIds : List Nat) (allowedNames : List String) :
    List TgMessage → List String → List (MsgRoute × String) × List String
  | [], warned => ([], warned)
  | m :: rest, warned =>
    let r := handleMessageStep allowedIds allowedNames m warned
    let after := processMessages allowedIds allowedNames rest r.2
    ((r.1, senderKey m.sender m.chatId) :: after.1, after.2)

/-- How many "Not authorized." replies a trace contains for one sender key. -/
def repliesFor (outs : List (MsgRoute × String)) (k : String) : Nat :=
  outs.countP (fun p => p.1 = MsgRoute.blockedReplied && p.2 = k)

theorem routeContent_ne_replied (msg : TgMessage) :
    routeContent msg ≠ MsgRoute.blockedReplied := by
  unfold routeContent
  split_ifs <;> simp

theorem repliesFor_zero_of_warned (allowedIds : List Nat)
    (allowedNames : List String) (msgs : List TgMessage) (warned : List String)
    (k : String) (hk : k ∈ warned) :
    repliesFor (processMessages allowedIds allowedNames msgs warned).1 k = 0 := by
  induction msgs generalizing warned with
  | nil => simp [processMessages, repliesFor]
  | cons m rest ih =>
    simp only [processMessages, repliesFor, List.countP_cons]
    unfold handleMessageStep
    split_ifs with hallow hwk
    · simp only [repliesFor] at ih
      rw [ih warned hk]
      simp [routeContent_ne_replied m]
    · simp only [repliesFor] at ih
      rw [ih warned hk]
      simp
    · have hkey : senderKey m.sender m.chatId ≠ k := by
        intro heq
        rw [heq] at hwk
        exact hwk (List.elem_iff.mpr hk)
      simp only [repliesFor] at ih
      rw [ih (senderKey m.sender m.chatId :: warned) (List.mem_cons_of_mem _ hk)]
      simp [hkey]

theorem repliesFor_le_one (allowedIds : List Nat) (allowedNames : List String)
    (msgs : List TgMessage) (warned : List String) (k : String) :
    repliesFor (processMessages allowedIds allowedNames msgs warned).1 k ≤ 1 := by
  induction msgs generalizing warned with
  | nil => simp [processMessages, repliesFor]
  | cons m rest ih =>
    simp only [processMessages, repliesFor, List.countP_cons]
    unfold handleMessageStep
    split_ifs with hallow hwk
    · simpa [routeContent_ne_replied m, repliesFor] using ih warned
    · simpa [repliesFor] using ih warned
    · by_cases hkey : senderKey m.sender m.chatId = k
      · have hzero := repliesFor_zero_of_warned allowedIds allowedNames rest
          (senderKey m.sender m.chatId :: warned) k
          (by rw [hkey]; exact List.mem_cons_self _ _)
        simp only [repliesFor] at hzero
        rw [hzero]
        simp [hkey]
      · simpa [hkey, repliesFor] using ih (senderKey m.sender m.chatId :: warned)

/-- C10: authorization is fail-closed.  A message whose sender is not
allowed (including one with no id and no username) is never routed to a
voice, image or text handler; a sender with neither id nor username is
never allowed; and any update stream produces at most one
"Not authorized." reply per sender key. -/
theorem handleMessage_fail_closed (allowedIds : List Nat)
    (allowedNames : List String) (msg : TgMessage) (warned : List String)
    (hnot : isUserAllowed (msg.sender.map (fun u => u.id))
      (msg.sender.bind (fun u => u.username)) allowedIds allowedNames = false)
    (msgs : List TgMessage) (k : String) :
    ((handleMessageStep allowedIds allowedNames msg warned).1 ≠
        MsgRoute.voiceHandler ∧
      (handleMessageStep allowedIds allowedNames msg warned).1 ≠
        MsgRoute.imageHandler ∧
      (handleMessageStep allowedIds allowedNames msg warned).1 ≠
        MsgRoute.textHandler) ∧
    isUserAllowed none none allowedIds allowedNames = false ∧
    repliesFor (processMessages allowedIds allowedNames msgs []).1 k ≤ 1 := by
  refine ⟨?_, rfl, repliesFor_le_one allowedIds allowedNames msgs [] k⟩
  unfold handleMessageStep
  rw [hnot]
  simp only [Bool.false_eq_true, if_false]
  split_ifs <;> simp

/-- Witness for C10: a sender with no id and no username, an empty allow
list, and a two-message stream from the same key. -/
theorem handleMessage_fail_closed_witness :
    isUserAllowed ((none : Option TgUser).map (fun u => u.id))
      ((none : Option TgUser).bind (fun u => u.username)) [] [] = false ∧
    (((handleMessageStep [] [] ⟨none, 42, 1, false, false, false, some "hi"⟩ []).1 ≠
        MsgRoute.voiceHandler ∧
      (handleMessageStep [] [] ⟨none, 42, 1, false, false, false, some "hi"⟩ []).1 ≠
        MsgRoute.imageHandler ∧
      (handleMessageStep [] [] ⟨none, 42, 1, false, false, false, some "hi"⟩ []).1 ≠
        MsgRoute.textHandler) ∧
     isUserAllowed none none [] [] = false ∧
     repliesFor (processMessages [] []
       [⟨none, 42, 1, false, false, false, some "hi"⟩,
        ⟨none, 42, 2, false, false, false, some "again"⟩] []).1 "42" ≤ 1) :=
  ⟨by decide,
    handleMessage_fail_closed [] [] ⟨none, 42, 1, false, false, false, some "hi"⟩ []
      (by decide)
      [⟨none, 42, 1, false, false, false, some "hi"⟩,
       ⟨none, 42, 2, false, false, false, some "again"⟩] "42"⟩
